import Mathlib

/-!
Verification of the text/LaTeX segmentation and document re-serialization
pipeline of the `wte` repository.

The segmenter (`parseContent` in the source) scans a raw string with the
combined pattern

  `(\$\$[\s\S]*?\$\$|\\\[[\s\S]*?\\\]|\\\([\s\S]*?\\\)|(?<!\\)\$[^$]*?\$)/g`

trying the four delimiter alternatives in priority order at each position,
emitting the gaps between matches as verbatim text segments and each match as
a math segment with delimiters stripped.  The serializer
(`generateWordCompatibleFile`) re-serializes the segment sequence into a
styled HTML document for docx packaging.

Strings are modelled as `List Char`.  The regex scan is modelled as an
explicit scanner: at each position the four alternatives are tried in order,
with lazy (shortest-match) closing-delimiter search, and a negative lookbehind
on the single-`$` alternative.  The external KaTeX typesetting collaborator is
modelled as an injected function `List Char → Bool → Except Unit (List Char)`
(`Except.error` models a thrown exception, caught by the serializer).
-/

namespace Wte

/-- Segment classification: plain text or math (`type` in the source). -/
inductive SegType where
  | text : SegType
  | math : SegType
deriving DecidableEq, Repr

/-- `TextSegment` from `types.ts`: `type`, `content`, and `displayMode`
(optional in the source, absent meaning `false`). -/
structure TextSegment where
  type : SegType
  content : List Char
  displayMode : Bool := false
deriving DecidableEq, Repr

/-- Lazy search for the first occurrence of the two-character closing
delimiter `a b`: returns the (shortest) content before it and the rest
after it.  Models the non-greedy `[\s\S]*?` followed by a two-character
closer. -/
def findClose2 (a b : Char) : List Char → Option (List Char × List Char)
  | [] => none
  | [_] => none
  | x :: y :: rest =>
    if x = a ∧ y = b then some ([], rest)
    else
      match findClose2 a b (y :: rest) with
      | some (c, r) => some (x :: c, r)
      | none => none

/-- Lazy search for the next `'$'`: returns the content before it (which by
construction contains no `'$'`) and the rest after it.  Models the
non-greedy `[^$]*?` followed by `\$`. -/
def findCloseDollar : List Char → Option (List Char × List Char)
  | [] => none
  | x :: rest =>
    if x = '$' then some ([], rest)
    else
      match findCloseDollar rest with
      | some (c, r) => some (x :: c, r)
      | none => none

/-- Try to match one of the four math-delimiter alternatives at the head of
`l`, in the source regex's priority order: `$$...$$`, `\[...\]`, `\(...\)`,
then `(?<!\\)$[^$]*?$`.  `prev` is the character immediately before `l` in
the full input (for the negative lookbehind on the last alternative).
Returns `(content, displayMode, fullMatch, rest)`, where content and mode
are assigned the way the source classifies `match[0]` afterwards — by
`startsWith` on the full match, not by which alternative matched.  In the
degenerate case of a `$$` with no closing `$$`, the `$...$` alternative
matches the two dollars as an empty span (lookbehind applies), and the
classification chain then sees a full match starting with `$$`: content
`slice(2, -2) = ""` and `displayMode = true`. -/
def tryMath (prev : Option Char) : List Char → Option (List Char × Bool × List Char × List Char)
  | a :: b :: t =>
    if a = '$' ∧ b = '$' then
      match findClose2 '$' '$' t with
      | some (c, r) => some (c, true, '$' :: '$' :: (c ++ ['$', '$']), r)
      | none =>
        -- the `$$...$$` alternative fails; the `$...$` alternative matches
        -- the two dollars, and `startsWith('$$')` classifies the match as
        -- an empty display-mode span
        if prev = some '\\' then none
        else some ([], true, ['$', '$'], t)
    else if a = '\\' ∧ b = '[' then
      match findClose2 '\\' ']' t with
      | some (c, r) => some (c, true, '\\' :: '[' :: (c ++ ['\\', ']']), r)
      | none => none
    else if a = '\\' ∧ b = '(' then
      match findClose2 '\\' ')' t with
      | some (c, r) => some (c, false, '\\' :: '(' :: (c ++ ['\\', ')']), r)
      | none => none
    else if a = '$' then
      if prev = some '\\' then none
      else
        match findCloseDollar (b :: t) with
        | some (c, r) => some (c, false, '$' :: (c ++ ['$']), r)
        | none => none
    else none
  | _ => none

/-- Scan left to right for the leftmost position where `tryMath` succeeds.
Returns `(gap, content, displayMode, fullMatch, rest)` where `gap` is the
text skipped before the match.  Models the regex engine advancing the scan
position one character at a time. -/
def findFirst (prev : Option Char) (l : List Char) :
    Option (List Char × List Char × Bool × List Char × List Char) :=
  match tryMath prev l with
  | some (c, dm, full, r) => some ([], c, dm, full, r)
  | none =>
    match l with
    | [] => none
    | a :: t =>
      match findFirst (some a) t with
      | some (g, c, dm, full, r) => some (a :: g, c, dm, full, r)
      | none => none

/-- The `while ((match = regex.exec(text)) !== null)` loop of `parseContent`:
emit the gap before each match as a text segment (only when non-empty), the
match as a math segment, and the tail after the last match as a final text
segment.  Each segment is paired with the original substring it came from
(the verbatim gap, resp. the full delimited match).  `fuel` bounds the
number of matches; every match consumes at least two characters, so
`l.length + 1` fuel is always sufficient, and on fuel exhaustion the
remaining input is flushed as text. -/
def scanMatches : Nat → Option Char → List Char → List (TextSegment × List Char)
  | 0, _, l => if l = [] then [] else [(⟨SegType.text, l, false⟩, l)]
  | fuel + 1, prev, l =>
    match findFirst prev l with
    | none => if l = [] then [] else [(⟨SegType.text, l, false⟩, l)]
    | some (g, c, dm, full, r) =>
      (if g = [] then [] else [((⟨SegType.text, g, false⟩ : TextSegment), g)]) ++
        (⟨SegType.math, c, dm⟩, full) :: scanMatches fuel full.getLast? r

/-- `parseContent`, additionally pairing every produced segment with the
original substring of the input it was cut from. -/
def parseContentFull (s : List Char) : List (TextSegment × List Char) :=
  scanMatches (s.length + 1) none s

/-- `parseContent` from the source: the ordered segment sequence. -/
def parseContent (s : List Char) : List TextSegment :=
  (parseContentFull s).map Prod.fst

/-- Concatenation of the original substrings recorded by `parseContentFull`. -/
def formsConcat (ps : List (TextSegment × List Char)) : List Char :=
  ps.foldr (fun p acc => p.2 ++ acc) []

/-! ## The serializer (`generateWordCompatibleFile`) -/

/-- `ExportStyle` from `types.ts`: the nine export presets. -/
inductive ExportStyle where
  | standard : ExportStyle
  | minimal : ExportStyle
  | worksheet : ExportStyle
  | notes : ExportStyle
  | twoColumn : ExportStyle
  | landscape : ExportStyle
  | largePrint : ExportStyle
  | draft : ExportStyle
  | flashcards : ExportStyle
deriving DecidableEq, Repr

/-- JavaScript `\s` / `trim()` whitespace (the characters relevant here). -/
def isJsSpace (c : Char) : Bool :=
  c = ' ' || c = '\t' || c = '\n' || c = '\r' || c = '\x0b' || c = '\x0c'

/-- JavaScript `String.prototype.trim`: strip whitespace from both ends. -/
def jsTrim (l : List Char) : List Char :=
  ((l.dropWhile isJsSpace).reverse.dropWhile isJsSpace).reverse

/-- Does `pat` occur at the head of `l`? -/
def beginsWith : List Char → List Char → Bool
  | [], _ => true
  | _ :: _, [] => false
  | p :: ps, x :: xs => p = x && beginsWith ps xs

/-- Split `l` at the first occurrence of `pat`: returns the part before the
occurrence and the part after it (leftmost-match semantics). -/
def splitFirst (pat : List Char) : List Char → Option (List Char × List Char)
  | [] => if beginsWith pat [] then some ([], []) else none
  | a :: t =>
    if beginsWith pat (a :: t) then some ([], (a :: t).drop pat.length)
    else
      match splitFirst pat t with
      | some (pre, post) => some (a :: pre, post)
      | none => none

/-- JavaScript `String.prototype.includes`. -/
def hasSub (pat l : List Char) : Bool :=
  (splitFirst pat l).isSome

/-- The sequential `.replace(/&/g,"&amp;").replace(/</g,"&lt;").replace(/>/g,"&gt;")`
escaping pass (the replacements introduce no further `<`/`>`, so a single
simultaneous pass is equivalent to the source's composition). -/
def escapeHtml : List Char → List Char
  | [] => []
  | a :: r =>
    (if a = '&' then "&amp;".toList
     else if a = '<' then "&lt;".toList
     else if a = '>' then "&gt;".toList
     else [a]) ++ escapeHtml r

/-- The case-insensitive keyword alternative `(Câu|Bài)` of the section-marker
regex (flag `i`; only the case foldings of these exact letters apply). -/
def matchKeyword : List Char → Option (List Char × List Char)
  | c1 :: c2 :: c3 :: r =>
    if ((c1 = 'C' ∨ c1 = 'c') ∧ (c2 = 'â' ∨ c2 = 'Â') ∧ (c3 = 'u' ∨ c3 = 'U')) ∨
       ((c1 = 'B' ∨ c1 = 'b') ∧ (c2 = 'à' ∨ c2 = 'À') ∧ (c3 = 'i' ∨ c3 = 'I'))
    then some ([c1, c2, c3], r) else none
  | _ => none

/-- A character of the class `[\dIVX]` under the case-insensitive flag. -/
def isNumChar (c : Char) : Bool :=
  c.isDigit || c = 'I' || c = 'V' || c = 'X' || c = 'i' || c = 'v' || c = 'x'

/-- Match `(Câu|Bài)\s+([\dIVX]+[.:]?)` at the head of `l` (the part of the
section-marker regex after the `(^|\n)` anchor): returns the keyword as
matched, the number group (with its optional trailing `.`/`:`), and the
rest.  Both `\s+` and `[\dIVX]+` are greedy; their character classes are
disjoint from what follows, so maximal munch is exact. -/
def matchMarker (l : List Char) : Option (List Char × List Char × List Char) :=
  match matchKeyword l with
  | none => none
  | some (kw, r1) =>
    let ws := r1.takeWhile isJsSpace
    if ws = [] then none
    else
      let r2 := r1.dropWhile isJsSpace
      let num := r2.takeWhile isNumChar
      if num = [] then none
      else
        let r3 := r2.dropWhile isNumChar
        match r3 with
        | p :: r4 => if p = '.' ∨ p = ':' then some (kw, num ++ [p], r4) else some (kw, num, r3)
        | [] => some (kw, num, [])

/-- Opening span of the section-marker highlight (blue + bold). -/
def hl1open : List Char := "<span style=\"color: #0284c7; font-weight: bold;\">".toList

/-- Opening span of the sub-item highlight (darker blue + bold). -/
def hl2open : List Char := "<span style=\"color: #0369a1; font-weight: bold;\">".toList

/-- The global replace
`safeText.replace(/(^|\n)(Câu|Bài)\s+([\dIVX]+[.:]?)/gi, '$1<span ...>$2 $3</span>')`:
a left-to-right scan; a match is attempted at position 0 (`^`, only when
`first`) and immediately after every `\n` still in the input; the matched
whitespace between keyword and number is normalized to a single space by the
replacement.  `fuel` decreases every step; each step consumes at least one
character, so `l.length + 1` fuel always suffices (on exhaustion the rest is
returned unprocessed). -/
def scanMarkers : Nat → Bool → List Char → List Char
  | 0, _, l => l
  | fuel + 1, first, l =>
    match l with
    | [] => []
    | a :: t =>
      match (if first then matchMarker (a :: t) else none) with
      | some (kw, num, r) =>
        hl1open ++ kw ++ (' ' :: num) ++ "</span>".toList ++ scanMarkers fuel false r
      | none =>
        if a = '\n' then
          match matchMarker t with
          | some (kw, num, r) =>
            '\n' :: (hl1open ++ kw ++ (' ' :: num) ++ "</span>".toList) ++ scanMarkers fuel false r
          | none => '\n' :: scanMarkers fuel false t
        else a :: scanMarkers fuel false t

/-- Match `([a-z]\))(\s)` at the head (the part of the sub-item regex after
its `(^|\n)` anchor): a lowercase ASCII letter, `)`, then one whitespace
character (captured and re-emitted by the replacement). -/
def matchSub : List Char → Option (Char × Char × List Char)
  | a :: b :: w :: r =>
    if 'a' ≤ a ∧ a ≤ 'z' ∧ b = ')' ∧ isJsSpace w = true then some (a, w, r) else none
  | _ => none

/-- The global replace
`safeText.replace(/(^|\n)([a-z]\))(\s)/g, '$1<span ...>$2</span>$3')`,
with the same scanning discipline as `scanMarkers`. -/
def scanSub : Nat → Bool → List Char → List Char
  | 0, _, l => l
  | fuel + 1, first, l =>
    match l with
    | [] => []
    | a :: t =>
      match (if first then matchSub (a :: t) else none) with
      | some (x, w, r) =>
        hl2open ++ [x, ')'] ++ "</span>".toList ++ w :: scanSub fuel false r
      | none =>
        if a = '\n' then
          match matchSub t with
          | some (x, w, r) =>
            '\n' :: (hl2open ++ [x, ')'] ++ "</span>".toList) ++ w :: scanSub fuel false r
          | none => '\n' :: scanSub fuel false t
        else a :: scanSub fuel false t

/-- `safeText.replace(/\n/g, "<br/>")`. -/
def nlToBr : List Char → List Char
  | [] => []
  | a :: r => (if a = '\n' then "<br/>".toList else [a]) ++ nlToBr r

/-- The plain-text processing pipeline of a text segment: HTML-escape, the
two highlighting passes, then newline-to-break conversion. -/
def highlightText (content : List Char) : List Char :=
  let safe1 := escapeHtml content
  let safe2 := scanMarkers (safe1.length + 1) true safe1
  let safe3 := scanSub (safe2.length + 1) true safe2
  nlToBr safe3

/-- The `writingLines` template constant (three dotted answer lines). -/
def writingLines : List Char :=
  ("\n    <div style=\"margin-top: 10pt; margin-bottom: 20pt; color: #999;\">\n        <p style=\"border-bottom: 1px dotted #999; line-height: 24pt;\">&nbsp;</p>\n        <p style=\"border-bottom: 1px dotted #999; line-height: 24pt;\">&nbsp;</p>\n        <p style=\"border-bottom: 1px dotted #999; line-height: 24pt;\">&nbsp;</p>\n    </div>\n  ").toList

/-- The fragment emitted for a text segment, including the worksheet-mode
answer-lines suffix (`style === 'worksheet' && !isRichText` and the segment
content contains "Câu" or "Bài" or is longer than 50 characters). -/
def textSegmentHtml (rich : Bool) (style : ExportStyle) (content : List Char) : List Char :=
  let htmlText :=
    if rich then content
    else "<span class=\"text-run\">".toList ++ highlightText content ++ "</span>".toList
  if style = ExportStyle.worksheet ∧ rich = false ∧
      (hasSub "Câu".toList content = true ∨ hasSub "Bài".toList content = true ∨
        50 < content.length)
  then htmlText ++ writingLines
  else htmlText

/-- The `mathML.match(/<math[\s\S]*?<\/math>/)` extraction: the first
`<math` occurrence with the nearest following `</math>`. -/
def extractMath (l : List Char) : Option (List Char) :=
  match splitFirst "<math".toList l with
  | none => none
  | some (_, rest) =>
    match splitFirst "</math>".toList rest with
    | none => none
    | some (mid, _) => some ("<math".toList ++ mid ++ "</math>".toList)

/-- The (non-global) replace removing the first
`<annotation encoding="application/x-tex">...</annotation>` block. -/
def stripAnnot (l : List Char) : List Char :=
  match splitFirst "<annotation encoding=\"application/x-tex\">".toList l with
  | none => l
  | some (before, rest) =>
    match splitFirst "</annotation>".toList rest with
    | none => l
    | some (_, after) => before ++ after

/-- The fragment emitted for a math segment.  The KaTeX collaborator is the
injected `render`; `Except.error` models `renderToString` throwing (caught:
`[LaTeX Error]`); a result without a `<math>` element yields
`[Equation Error]`; otherwise the annotated source is stripped, display
segments are wrapped in a centered equation paragraph (worksheet mode adding
one blank spacer line), inline segments are emitted bare. -/
def mathSegmentHtml (render : List Char → Bool → Except Unit (List Char))
    (style : ExportStyle) (content : List Char) (dm : Bool) : List Char :=
  match render content dm with
  | Except.error _ => "[LaTeX Error]".toList
  | Except.ok out =>
    match extractMath out with
    | none => "[Equation Error]".toList
    | some m =>
      let clean := stripAnnot m
      if dm then
        "<p class=\"equation\" style=\"text-align: center; margin: 12pt 0;\">".toList
          ++ clean ++ "</p>".toList
          ++ (if style = ExportStyle.worksheet
              then "<p style=\"margin-bottom: 30pt;\">&nbsp;</p>".toList else [])
      else clean

/-- One iteration of the `segments.forEach` accumulation: compute the
segment's fragment and, in flashcards mode, wrap it in a bordered card div
when it is a text segment whose fragment trims non-empty, or a display-mode
math segment. -/
def wrapSegment (render : List Char → Bool → Except Unit (List Char))
    (rich : Bool) (style : ExportStyle) (seg : TextSegment) : List Char :=
  let h :=
    match seg.type with
    | SegType.text => textSegmentHtml rich style seg.content
    | SegType.math => mathSegmentHtml render style seg.content seg.displayMode
  if style = ExportStyle.flashcards ∧ seg.type = SegType.text ∧ 0 < (jsTrim h).length then
    "<div class=\"flashcard\">".toList ++ h ++ "</div>".toList
  else if style = ExportStyle.flashcards ∧ seg.type = SegType.math ∧ seg.displayMode = true then
    "<div class=\"flashcard\">".toList ++ h ++ "</div>".toList
  else h

/-- `bodyContent`: the concatenation of the per-segment fragments in order. -/
def bodyContentOf (render : List Char → Bool → Except Unit (List Char))
    (rich : Bool) (style : ExportStyle) : List TextSegment → List Char
  | [] => []
  | seg :: rest => wrapSegment render rich style seg ++ bodyContentOf render rich style rest

/-- The page/body layout CSS values chosen by the per-style `switch`. -/
structure StyleCss where
  pageMargin : List Char
  orientation : List Char
  fontSize : List Char
  fontFamily : List Char
  lineHeight : List Char
  extraCss : List Char
deriving DecidableEq, Repr

/-- The defaults before the `switch` (`1in`, portrait, `12pt`, Times serif,
`1.5`, no extra CSS). -/
def defaultCss : StyleCss :=
  { pageMargin := "1in".toList
    orientation := "portrait".toList
    fontSize := "12pt".toList
    fontFamily := "\x27Times New Roman\x27, serif".toList
    lineHeight := "1.5".toList
    extraCss := [] }

/-- The `extraCss` template constant of the `two-column` case. -/
def twoColumnCss : List Char :=
  ("\n            .Section1 \x7b \n                column-count: 2; \n                column-gap: 36pt; \n            \x7d\n          ").toList

/-- The `extraCss` template constant of the `flashcards` case. -/
def flashcardCss : List Char :=
  ("\n            .flashcard \x7b\n                border: 2px solid #000;\n                padding: 15pt;\n                margin: 15pt 0;\n                page-break-inside: avoid;\n                background-color: #ffffff;\n            \x7d\n          ").toList

/-- The per-style `switch` over the layout CSS values. -/
def styleCssOf : ExportStyle → StyleCss
  | ExportStyle.notes => { defaultCss with pageMargin := "1in 1in 1in 2.5in".toList }
  | ExportStyle.minimal =>
    { defaultCss with pageMargin := "0.5in".toList, lineHeight := "1.2".toList }
  | ExportStyle.twoColumn =>
    { defaultCss with pageMargin := "0.5in".toList, extraCss := twoColumnCss }
  | ExportStyle.landscape => { defaultCss with orientation := "landscape".toList }
  | ExportStyle.largePrint =>
    { defaultCss with fontSize := "16pt".toList, fontFamily := "Arial, sans-serif".toList,
                      lineHeight := "1.6".toList }
  | ExportStyle.draft =>
    { defaultCss with lineHeight := "2.0".toList, pageMargin := "1.5in".toList }
  | ExportStyle.flashcards => { defaultCss with extraCss := flashcardCss }
  | _ => defaultCss

/-- `const isPlain = style === 'minimal' || style === 'draft'`. -/
def isPlainStyle (style : ExportStyle) : Bool :=
  style = ExportStyle.minimal || style = ExportStyle.draft

/-- `headingColor1`: neutral black for plain styles, accent blue otherwise. -/
def headingColor1Of (style : ExportStyle) : List Char :=
  if isPlainStyle style then "#000000".toList else "#2E74B5".toList

/-- `headingColor2`: neutral black for plain styles, dark blue otherwise. -/
def headingColor2Of (style : ExportStyle) : List Char :=
  if isPlainStyle style then "#000000".toList else "#1F4D78".toList

/-- `tableHeaderBg`: white for plain styles, light grey otherwise. -/
def tableHeaderBgOf (style : ExportStyle) : List Char :=
  if isPlainStyle style then "#ffffff".toList else "#f2f2f2".toList

/-- `fullHtml` template: the literal text before the `margin:` value. -/
def htmlT0 : List Char :=
  ("\n    <!DOCTYPE html>\n    <html lang=\"en\">\n    <head>\n        <meta charset=\"UTF-8\">\n        <title>Export</title>\n        <style>\n            @page \x7b\n                margin: ").toList

/-- `fullHtml` template: between the `margin:` and `size:` values. -/
def htmlT1 : List Char := (";\n                size: ").toList

/-- `fullHtml` template: between the `size:` and `font-family:` values. -/
def htmlT2 : List Char :=
  (";\n            \x7d\n            \n            body \x7b \n                font-family: ").toList

/-- `fullHtml` template: between the `font-family:` and `font-size:` values. -/
def htmlT3 : List Char := ("; \n                font-size: ").toList

/-- `fullHtml` template: between the `font-size:` and `line-height:` values. -/
def htmlT4 : List Char := ("; \n                line-height: ").toList

/-- `fullHtml` template: between the `line-height:` value and the `h1` color. -/
def htmlT5 : List Char :=
  ("; \n                color: #000000;\n            \x7d\n            \n            /* Heading Styles */\n            h1 \x7b font-size: 1.4em; color: ").toList

/-- `fullHtml` template: between the `h1` and `h2` colors. -/
def htmlT6 : List Char :=
  ("; font-weight: bold; margin-top: 18pt; margin-bottom: 6pt; \x7d\n            h2 \x7b font-size: 1.2em; color: ").toList

/-- `fullHtml` template: between the `h2` and `h3` colors. -/
def htmlT7 : List Char :=
  ("; font-weight: bold; margin-top: 12pt; margin-bottom: 6pt; \x7d\n            h3 \x7b font-size: 1.1em; color: ").toList

/-- `fullHtml` template: between the `h3` color and the table-header
background color. -/
def htmlT8 : List Char :=
  ("; font-weight: bold; margin-top: 12pt; margin-bottom: 6pt; \x7d\n            \n            /* Text Runs */\n            .text-run \x7b white-space: pre-wrap; \x7d\n            \n            /* Equations */\n            p.equation \x7b margin: 12pt 0; text-align: center; \x7d\n            \n            /* Tables */\n            table \x7b \n                border-collapse: collapse; \n                width: 100%; \n                margin: 12pt 0; \n                border: 1px solid black;\n            \x7d\n            td, th \x7b \n                border: 1px solid black; \n                padding: 6px 8px; \n                vertical-align: top;\n            \x7d\n            th \x7b\n                background-color: ").toList

/-- `fullHtml` template: between the table-header background and `extraCss`. -/
def htmlT9 : List Char :=
  (";\n                font-weight: bold;\n            \x7d\n\n            /* Custom Style CSS */\n            ").toList

/-- `fullHtml` template: between `extraCss` and `bodyContent`. -/
def htmlT10 : List Char :=
  ("\n        </style>\n    </head>\n    <body>\n        <div class=\"Section1\">\n            ").toList

/-- `fullHtml` template: everything after `bodyContent` — the hardcoded
footer (a line break, a horizontal rule and the centered author-credit
paragraph) followed by the closing wrapper tags. -/
def htmlFooter : List Char :=
  ("\n            \n            <br/>\n            <hr/>\n            <p style=\"text-align: center; color: #2E74B5; font-size: 10pt; font-weight: bold; margin-top: 20pt;\">\n                Thầy Vũ Tiến Lực - Trường THPT Nguyễn Hữu Cảnh\n            </p>\n        </div>\n    </body>\n    </html>\n  ").toList

/-- The interpolated `fullHtml` template. -/
def fullHtmlOf (css : StyleCss) (h1c h2c thbg body : List Char) : List Char :=
  htmlT0 ++ css.pageMargin ++ htmlT1 ++ css.orientation ++ htmlT2 ++ css.fontFamily
    ++ htmlT3 ++ css.fontSize ++ htmlT4 ++ css.lineHeight ++ htmlT5 ++ h1c ++ htmlT6
    ++ h1c ++ htmlT7 ++ h2c ++ htmlT8 ++ thbg ++ htmlT9 ++ css.extraCss ++ htmlT10
    ++ body ++ htmlFooter

/-- The serializer's result: the markup document handed to the packaging
collaborator (`asBlob`), together with the layout directives it embeds
(the spec's `(markupString, layoutDirectives)` contract). -/
structure ExportResult where
  html : List Char
  css : StyleCss
  headingColor1 : List Char
  headingColor2 : List Char
  tableHeaderBg : List Char
deriving DecidableEq, Repr

/-- `generateWordCompatibleFile` (up to the external `asBlob` packaging
call): accumulate the per-segment fragments, choose the per-style layout
CSS and colors, and interpolate the full HTML document.  The KaTeX
collaborator is injected as `render`. -/
def generateWordCompatibleFile (render : List Char → Bool → Except Unit (List Char))
    (segments : List TextSegment) (isRichText : Bool) (style : ExportStyle) : ExportResult :=
  let bodyContent := bodyContentOf render isRichText style segments
  let css := styleCssOf style
  { html := fullHtmlOf css (headingColor1Of style) (headingColor2Of style)
      (tableHeaderBgOf style) bodyContent
    css := css
    headingColor1 := headingColor1Of style
    headingColor2 := headingColor2Of style
    tableHeaderBg := tableHeaderBgOf style }

/-! ## The spec's layout table (for the refinement claim C3)

The following definitions follow the words of the spec's per-style layout
table (section 4.2), not the source; they exist to be compared with the
source-derived `styleCssOf` and color functions. -/

/-- Spec table margin column: normal / narrow / wide / wide-left. -/
inductive MarginClass where
  | normal : MarginClass
  | narrow : MarginClass
  | wide : MarginClass
  | wideLeft : MarginClass
deriving DecidableEq, Repr

/-- Spec table orientation column. -/
inductive OrientClass where
  | portrait : OrientClass
  | landscape : OrientClass
deriving DecidableEq, Repr

/-- Spec table font-size column. -/
inductive FontSizeClass where
  | normal : FontSizeClass
  | large : FontSizeClass
deriving DecidableEq, Repr

/-- Spec table font-family column. -/
inductive FontFamilyClass where
  | serif : FontFamilyClass
  | sansSerif : FontFamilyClass
deriving DecidableEq, Repr

/-- Spec table line-height column: tight / normal / loose / double. -/
inductive LineHeightClass where
  | tight : LineHeightClass
  | normal : LineHeightClass
  | loose : LineHeightClass
  | double : LineHeightClass
deriving DecidableEq, Repr

/-- One row of the spec's layout table.  The structural-extra column is
split into the three flags visible in the directive bundle itself: neutral
(plain) colors, the two-column flow CSS, and the flashcard card CSS.  (The
worksheet row's answer-lines extra is a behavior of the body serialization,
stated separately.) -/
structure SpecLayoutRow where
  margins : MarginClass
  orient : OrientClass
  fontSize : FontSizeClass
  fontFamily : FontFamilyClass
  lineHeight : LineHeightClass
  plainColors : Bool
  twoColumnFlow : Bool
  cardWrap : Bool
deriving DecidableEq, Repr

/-- The spec's per-style layout table, row by row. -/
def specLayoutTable : ExportStyle → SpecLayoutRow
  | ExportStyle.standard =>
    ⟨MarginClass.normal, OrientClass.portrait, FontSizeClass.normal,
      FontFamilyClass.serif, LineHeightClass.normal, false, false, false⟩
  | ExportStyle.minimal =>
    ⟨MarginClass.narrow, OrientClass.portrait, FontSizeClass.normal,
      FontFamilyClass.serif, LineHeightClass.tight, true, false, false⟩
  | ExportStyle.worksheet =>
    ⟨MarginClass.normal, OrientClass.portrait, FontSizeClass.normal,
      FontFamilyClass.serif, LineHeightClass.normal, false, false, false⟩
  | ExportStyle.notes =>
    ⟨MarginClass.wideLeft, OrientClass.portrait, FontSizeClass.normal,
      FontFamilyClass.serif, LineHeightClass.normal, false, false, false⟩
  | ExportStyle.twoColumn =>
    ⟨MarginClass.narrow, OrientClass.portrait, FontSizeClass.normal,
      FontFamilyClass.serif, LineHeightClass.normal, false, true, false⟩
  | ExportStyle.landscape =>
    ⟨MarginClass.normal, OrientClass.landscape, FontSizeClass.normal,
      FontFamilyClass.serif, LineHeightClass.normal, false, false, false⟩
  | ExportStyle.largePrint =>
    ⟨MarginClass.normal, OrientClass.portrait, FontSizeClass.large,
      FontFamilyClass.sansSerif, LineHeightClass.loose, false, false, false⟩
  | ExportStyle.draft =>
    ⟨MarginClass.wide, OrientClass.portrait, FontSizeClass.normal,
      FontFamilyClass.serif, LineHeightClass.double, true, false, false⟩
  | ExportStyle.flashcards =>
    ⟨MarginClass.normal, OrientClass.portrait, FontSizeClass.normal,
      FontFamilyClass.serif, LineHeightClass.normal, false, false, true⟩

/-- Classify a concrete `@page` margin value into the spec's margin classes. -/
def classifyMargin (m : List Char) : Option MarginClass :=
  if m = "1in".toList then some MarginClass.normal
  else if m = "0.5in".toList then some MarginClass.narrow
  else if m = "1.5in".toList then some MarginClass.wide
  else if m = "1in 1in 1in 2.5in".toList then some MarginClass.wideLeft
  else none

/-- Classify a concrete page-size value into the spec's orientation column. -/
def classifyOrient (o : List Char) : Option OrientClass :=
  if o = "portrait".toList then some OrientClass.portrait
  else if o = "landscape".toList then some OrientClass.landscape
  else none

/-- Classify a concrete font-size value into the spec's font-size column. -/
def classifyFontSize (f : List Char) : Option FontSizeClass :=
  if f = "12pt".toList then some FontSizeClass.normal
  else if f = "16pt".toList then some FontSizeClass.large
  else none

/-- Classify a concrete font-family value into the spec's family column. -/
def classifyFamily (f : List Char) : Option FontFamilyClass :=
  if f = "\x27Times New Roman\x27, serif".toList then some FontFamilyClass.serif
  else if f = "Arial, sans-serif".toList then some FontFamilyClass.sansSerif
  else none

/-- Classify a concrete line-height value into the spec's line-height column. -/
def classifyLineHeight (h : List Char) : Option LineHeightClass :=
  if h = "1.2".toList then some LineHeightClass.tight
  else if h = "1.5".toList then some LineHeightClass.normal
  else if h = "1.6".toList then some LineHeightClass.loose
  else if h = "2.0".toList then some LineHeightClass.double
  else none

/-- Abstract the concrete directive bundle (layout CSS values, extra CSS and
heading color) to a row of the spec's table shape. -/
def abstractRow (css : StyleCss) (h1c : List Char) : Option SpecLayoutRow :=
  match classifyMargin css.pageMargin, classifyOrient css.orientation,
      classifyFontSize css.fontSize, classifyFamily css.fontFamily,
      classifyLineHeight css.lineHeight with
  | some m, some o, some fs, some ff, some lh =>
    some ⟨m, o, fs, ff, lh, decide (h1c = "#000000".toList),
      decide (css.extraCss = twoColumnCss), decide (css.extraCss = flashcardCss)⟩
  | _, _, _, _, _ => none


/-! ## Proofs about the segmenter -/

theorem formsConcat_append (xs ys : List (TextSegment × List Char)) :
    formsConcat (xs ++ ys) = formsConcat xs ++ formsConcat ys := by
  induction xs with
  | nil => simp [formsConcat]
  | cons x t ih => simp [formsConcat, List.foldr_cons] at ih ⊢; simp [ih]

theorem findClose2_append (a b : Char) :
    ∀ l c r, findClose2 a b l = some (c, r) → c ++ a :: b :: r = l := by
  intro l
  induction l with
  | nil => intro c r h; simp [findClose2] at h
  | cons x t ih =>
    intro c r h
    cases t with
    | nil => simp [findClose2] at h
    | cons y rest =>
      rw [findClose2] at h
      split at h
      · next hab =>
        obtain ⟨ha, hb⟩ := hab
        obtain ⟨rfl, rfl⟩ : c = ([] : List Char) ∧ r = rest := by
          simpa using h.symm
        simp [ha, hb]
      · next hab =>
        split at h
        · next c' r' heq =>
          obtain ⟨rfl, rfl⟩ : c = x :: c' ∧ r = r' := by
            simpa using h.symm
          have := ih c' r heq
          simpa using this
        · simp at h

theorem findCloseDollar_append :
    ∀ l c r, findCloseDollar l = some (c, r) → c ++ '$' :: r = l := by
  intro l
  induction l with
  | nil => intro c r h; simp [findCloseDollar] at h
  | cons x t ih =>
    intro c r h
    rw [findCloseDollar] at h
    split at h
    · next hx =>
      obtain ⟨rfl, rfl⟩ : c = ([] : List Char) ∧ r = t := by simpa using h.symm
      simp [hx]
    · next hx =>
      split at h
      · next c' r' heq =>
        obtain ⟨rfl, rfl⟩ : c = x :: c' ∧ r = r' := by simpa using h.symm
        have := ih c' r heq
        simpa using this
      · simp at h

theorem findCloseDollar_not_mem :
    ∀ l c r, findCloseDollar l = some (c, r) → '$' ∉ c := by
  intro l
  induction l with
  | nil => intro c r h; simp [findCloseDollar] at h
  | cons x t ih =>
    intro c r h
    rw [findCloseDollar] at h
    split at h
    · next hx =>
      obtain ⟨rfl, rfl⟩ : c = ([] : List Char) ∧ r = t := by simpa using h.symm
      simp
    · next hx =>
      split at h
      · next c' r' heq =>
        obtain ⟨rfl, rfl⟩ : c = x :: c' ∧ r = r' := by simpa using h.symm
        intro hmem
        rcases List.mem_cons.mp hmem with h1 | h1
        · exact hx h1.symm
        · exact ih c' r heq h1
      · simp at h

/-- The shapes a successful `tryMath` match can take — the four delimiter
wrappings plus the degenerate unclosed-`$$` match (original form `$$`,
empty content, display mode) — and that the match together with the rest
reassembles the scanned input. -/
theorem tryMath_spec (prev : Option Char) :
    ∀ l c dm full r, tryMath prev l = some (c, dm, full, r) →
      full ++ r = l ∧
      ((full = '$' :: '$' :: (c ++ ['$', '$']) ∧ dm = true) ∨
       (full = '\\' :: '[' :: (c ++ ['\\', ']']) ∧ dm = true) ∨
       (full = '\\' :: '(' :: (c ++ ['\\', ')']) ∧ dm = false) ∨
       (full = '$' :: (c ++ ['$']) ∧ dm = false) ∨
       (full = ['$', '$'] ∧ c = [] ∧ dm = true)) := by
  intro l c dm full r h
  match l with
  | [] => simp [tryMath] at h
  | [a] => simp [tryMath] at h
  | a :: b :: t =>
    rw [tryMath] at h
    split at h
    · next hab =>
      obtain ⟨rfl, rfl⟩ := hab
      split at h
      · next c' r' heq =>
        obtain ⟨rfl, rfl, rfl, rfl⟩ :
            c = c' ∧ dm = true ∧ full = '$' :: '$' :: (c' ++ ['$', '$']) ∧ r = r' := by
          simpa using h.symm
        have h2 := findClose2_append '$' '$' t c r heq
        constructor
        · rw [← h2]; simp
        · left; exact ⟨rfl, rfl⟩
      · split at h
        · simp at h
        · obtain ⟨rfl, rfl, rfl, rfl⟩ :
              c = ([] : List Char) ∧ dm = true ∧ full = ['$', '$'] ∧ r = t := by
            simpa using h.symm
          exact ⟨rfl, by right; right; right; right; exact ⟨rfl, rfl, rfl⟩⟩
    · split at h
      · next hab =>
        obtain ⟨rfl, rfl⟩ := hab
        split at h
        · next c' r' heq =>
          obtain ⟨rfl, rfl, rfl, rfl⟩ :
              c = c' ∧ dm = true ∧ full = '\\' :: '[' :: (c' ++ ['\\', ']']) ∧ r = r' := by
            simpa using h.symm
          have h2 := findClose2_append '\\' ']' t c r heq
          constructor
          · rw [← h2]; simp
          · right; left; exact ⟨rfl, rfl⟩
        · simp at h
      · split at h
        · next hab =>
          obtain ⟨rfl, rfl⟩ := hab
          split at h
          · next c' r' heq =>
            obtain ⟨rfl, rfl, rfl, rfl⟩ :
                c = c' ∧ dm = false ∧ full = '\\' :: '(' :: (c' ++ ['\\', ')']) ∧ r = r' := by
              simpa using h.symm
            have h2 := findClose2_append '\\' ')' t c r heq
            constructor
            · rw [← h2]; simp
            · right; right; left; exact ⟨rfl, rfl⟩
          · simp at h
        · split at h
          · next ha =>
            subst ha
            split at h
            · simp at h
            · split at h
              · next c' r' heq =>
                obtain ⟨rfl, rfl, rfl, rfl⟩ :
                    c = c' ∧ dm = false ∧ full = '$' :: (c' ++ ['$']) ∧ r = r' := by
                  simpa using h.symm
                have h2 := findCloseDollar_append (b :: t) c r heq
                constructor
                · rw [← h2]; simp
                · right; right; right; left; exact ⟨rfl, rfl⟩
              · simp at h
          · simp at h

theorem findFirst_spec (prev : Option Char) :
    ∀ l g c dm full r, findFirst prev l = some (g, c, dm, full, r) →
      g ++ full ++ r = l ∧
      ((full = '$' :: '$' :: (c ++ ['$', '$']) ∧ dm = true) ∨
       (full = '\\' :: '[' :: (c ++ ['\\', ']']) ∧ dm = true) ∨
       (full = '\\' :: '(' :: (c ++ ['\\', ')']) ∧ dm = false) ∨
       (full = '$' :: (c ++ ['$']) ∧ dm = false) ∨
       (full = ['$', '$'] ∧ c = [] ∧ dm = true)) := by
  intro l
  induction l generalizing prev with
  | nil =>
    intro g c dm full r h
    rw [findFirst] at h
    split at h
    · next heq =>
      exfalso
      simp [tryMath] at heq
    · simp at h
  | cons a t ih =>
    intro g c dm full r h
    rw [findFirst] at h
    split at h
    · next c' dm' full' r' heq =>
      obtain ⟨rfl, rfl, rfl, rfl, rfl⟩ :
          g = ([] : List Char) ∧ c = c' ∧ dm = dm' ∧ full = full' ∧ r = r' := by
        simpa using h.symm
      have := tryMath_spec prev (a :: t) c dm full r heq
      exact ⟨by simpa using this.1, this.2⟩
    · split at h
      · next g' c' dm' full' r' heq =>
        obtain ⟨rfl, rfl, rfl, rfl, rfl⟩ :
            g = a :: g' ∧ c = c' ∧ dm = dm' ∧ full = full' ∧ r = r' := by
          simpa using h.symm
        have := ih (some a) g' c dm full r heq
        exact ⟨by simpa using this.1, this.2⟩
      · simp at h

/-- The scan is a lossless partition: the original substrings attached to the
segments concatenate back to the scanned input, for every fuel value. -/
theorem scanMatches_concat :
    ∀ fuel prev l, formsConcat (scanMatches fuel prev l) = l := by
  intro fuel
  induction fuel with
  | zero =>
    intro prev l
    rw [scanMatches]
    split <;> simp_all [formsConcat]
  | succ fuel ih =>
    intro prev l
    rw [scanMatches]
    split
    · split <;> simp_all [formsConcat]
    · next g c dm full r heq =>
      have hspec := findFirst_spec prev l g c dm full r heq
      rw [formsConcat_append]
      have htail : formsConcat ((⟨SegType.math, c, dm⟩, full) :: scanMatches fuel full.getLast? r)
          = full ++ formsConcat (scanMatches fuel full.getLast? r) := by
        simp [formsConcat]
      rw [htail, ih full.getLast? r]
      rcases hspec with ⟨hl, _⟩
      by_cases hg : g = []
      · subst hg; simpa using hl
      · rw [if_neg hg]
        have : formsConcat [((⟨SegType.text, g, false⟩ : TextSegment), g)] = g := by
          simp [formsConcat]
        rw [this]
        simpa using hl

/-- Every pair produced by the scan relates its segment to its original
substring: verbatim for text segments; for math segments one of the four
delimiter wrappings of the content, or the degenerate unclosed-`$$` match
(original form `$$`, empty content, display mode). -/
theorem scanMatches_mem :
    ∀ fuel prev l p, p ∈ scanMatches fuel prev l →
      (p.1.type = SegType.text → p.2 = p.1.content) ∧
      (p.1.type = SegType.math →
        (p.2 = '$' :: '$' :: (p.1.content ++ ['$', '$']) ∧ p.1.displayMode = true) ∨
        (p.2 = '\\' :: '[' :: (p.1.content ++ ['\\', ']']) ∧ p.1.displayMode = true) ∨
        (p.2 = '\\' :: '(' :: (p.1.content ++ ['\\', ')']) ∧ p.1.displayMode = false) ∨
        (p.2 = '$' :: (p.1.content ++ ['$']) ∧ p.1.displayMode = false) ∨
        (p.2 = ['$', '$'] ∧ p.1.content = [] ∧ p.1.displayMode = true)) := by
  intro fuel
  induction fuel with
  | zero =>
    intro prev l p hp
    rw [scanMatches] at hp
    split at hp
    · simp at hp
    · obtain rfl : p = (⟨SegType.text, l, false⟩, l) := by simpa using hp
      exact ⟨fun _ => rfl, fun h => by simp at h⟩
  | succ fuel ih =>
    intro prev l p hp
    rw [scanMatches] at hp
    split at hp
    · split at hp
      · simp at hp
      · obtain rfl : p = (⟨SegType.text, l, false⟩, l) := by simpa using hp
        exact ⟨fun _ => rfl, fun h => by simp at h⟩
    · next g c dm full r heq =>
      have hspec := findFirst_spec prev l g c dm full r heq
      rcases List.mem_append.mp hp with hg | hrest
      · have hpg : p = (⟨SegType.text, g, false⟩, g) := by
          by_cases hgnil : g = []
          · rw [if_pos hgnil] at hg; simp at hg
          · rw [if_neg hgnil] at hg; simpa using hg
        subst hpg
        exact ⟨fun _ => rfl, fun h => by simp at h⟩
      · rcases List.mem_cons.mp hrest with hm | htail
        · subst hm
          refine ⟨fun h => by simp at h, fun _ => ?_⟩
          simpa using hspec.2
        · exact ih full.getLast? r p htail

/-- C1: for every input string, concatenating the segments produced by the
segmenter in their original delimited forms — the verbatim gap text for text
segments, the original delimited match for math segments — reconstructs the
input exactly (lossless partition).  Every math segment's original form is
its content wrapped in one of the four delimiter pairs, except the
degenerate unclosed-`$$` match, whose original form is `$$` with empty
content and display mode (the source classifies the full match `$$` by
`startsWith('$$')`). -/
theorem C1_lossless_partition :
    (∀ s, formsConcat (parseContentFull s) = s) ∧
    (∀ s, parseContent s = (parseContentFull s).map Prod.fst) ∧
    (∀ s p, p ∈ parseContentFull s →
      (p.1.type = SegType.text → p.2 = p.1.content) ∧
      (p.1.type = SegType.math →
        (p.2 = '$' :: '$' :: (p.1.content ++ ['$', '$']) ∧ p.1.displayMode = true) ∨
        (p.2 = '\\' :: '[' :: (p.1.content ++ ['\\', ']']) ∧ p.1.displayMode = true) ∨
        (p.2 = '\\' :: '(' :: (p.1.content ++ ['\\', ')']) ∧ p.1.displayMode = false) ∨
        (p.2 = '$' :: (p.1.content ++ ['$']) ∧ p.1.displayMode = false) ∨
        (p.2 = ['$', '$'] ∧ p.1.content = [] ∧ p.1.displayMode = true))) :=
  ⟨fun s => scanMatches_concat (s.length + 1) none s,
   fun _ => rfl,
   fun s p hp => scanMatches_mem (s.length + 1) none s p hp⟩

/-- Witness for C1 at the concrete input `"$x$"`: the single produced math
segment carries the original form `$x$`, the re-delimited inline shape. -/
theorem C1_lossless_partition_witness :
    (['$', 'x', '$'] : List Char) = '$' :: '$' :: ((['x'] : List Char) ++ ['$', '$'])
        ∧ (false : Bool) = true ∨
      (['$', 'x', '$'] : List Char) = '\\' :: '[' :: ((['x'] : List Char) ++ ['\\', ']'])
        ∧ (false : Bool) = true ∨
      (['$', 'x', '$'] : List Char) = '\\' :: '(' :: ((['x'] : List Char) ++ ['\\', ')'])
        ∧ (false : Bool) = false ∨
      (['$', 'x', '$'] : List Char) = '$' :: ((['x'] : List Char) ++ ['$'])
        ∧ (false : Bool) = false ∨
      (['$', 'x', '$'] : List Char) = ['$', '$'] ∧ (['x'] : List Char) = []
        ∧ (false : Bool) = true :=
  (C1_lossless_partition.2.2 ['$', 'x', '$']
    ((⟨SegType.math, ['x'], false⟩ : TextSegment), ['$', 'x', '$']) (by decide)).2 rfl

/-- C2: segmentation is total — it is a total Lean function, and on the
pathological inputs (empty string, lone unmatched `$`, a nul character,
nested `$$...$...$...$$`, an unterminated delimiter) it returns the expected
segment sequence, unmatched delimiters falling through as literal text. -/
theorem C2_totality :
    (∀ s : List Char, ∃ segs, parseContent s = segs) ∧
    parseContent [] = [] ∧
    parseContent ['$'] = [⟨SegType.text, ['$'], false⟩] ∧
    parseContent ['\x00'] = [⟨SegType.text, ['\x00'], false⟩] ∧
    parseContent "$$a$b$c$$".toList = [⟨SegType.math, "a$b$c".toList, true⟩] ∧
    parseContent "Total: $5 no closing".toList
      = [⟨SegType.text, "Total: $5 no closing".toList, false⟩] :=
  ⟨fun s => ⟨parseContent s, rfl⟩, by decide, by decide, by decide, by decide, by decide⟩

/-- C8: the scanner prefers `$$` over a lone `$` at the same position,
assigns display mode to `$$..$$` and `\[..\]` and inline mode to `\(..\)`
and `$..$`, and splits the spec's concrete example into exactly the five
expected segments. -/
theorem C8_priority_and_modes :
    parseContent "Ans: $x^2$ and $$\\int_0^1 x dx$$ done".toList
      = [⟨SegType.text, "Ans: ".toList, false⟩,
         ⟨SegType.math, "x^2".toList, false⟩,
         ⟨SegType.text, " and ".toList, false⟩,
         ⟨SegType.math, "\\int_0^1 x dx".toList, true⟩,
         ⟨SegType.text, " done".toList, false⟩] ∧
    parseContent "$$x$$".toList = [⟨SegType.math, ['x'], true⟩] ∧
    parseContent "\\[x\\]".toList = [⟨SegType.math, ['x'], true⟩] ∧
    parseContent "\\(x\\)".toList = [⟨SegType.math, ['x'], false⟩] ∧
    parseContent "$x$".toList = [⟨SegType.math, ['x'], false⟩] :=
  ⟨by decide, by decide, by decide, by decide, by decide⟩

/-- C9: an escaped `\$` never opens an inline `$...$` span, the matched
`$...$` content never contains a bare `$`, and the spec's escaped-dollar
example stays one verbatim text segment. -/
theorem C9_escaped_dollar :
    parseContent "Price is \\$5, cost \\$3".toList
      = [⟨SegType.text, "Price is \\$5, cost \\$3".toList, false⟩] ∧
    (∀ t c r, findCloseDollar t = some (c, r) → '$' ∉ c) ∧
    (∀ b t, b ≠ '$' → tryMath (some '\\') ('$' :: b :: t) = none) := by
  refine ⟨by decide, findCloseDollar_not_mem, ?_⟩
  intro b t hb
  rw [tryMath]
  rw [if_neg (by simp [hb]), if_neg (by simp), if_neg (by simp), if_pos rfl, if_pos rfl]

/-- Witness for C9: the inline-span content search stops at the first `$`
(content `['a']` contains no `$`), and a `$` preceded by a backslash opens
nothing. -/
theorem C9_escaped_dollar_witness :
    '$' ∉ (['a'] : List Char) ∧ tryMath (some '\\') ['$', 'a', 'b'] = none :=
  ⟨C9_escaped_dollar.2.1 ['a', '$'] ['a'] [] (by decide),
   C9_escaped_dollar.2.2 'a' ['b'] (by decide)⟩



/-! ## Proofs about the serializer -/

theorem bodyContentOf_append (render : List Char → Bool → Except Unit (List Char))
    (rich : Bool) (style : ExportStyle) (xs ys : List TextSegment) :
    bodyContentOf render rich style (xs ++ ys)
      = bodyContentOf render rich style xs ++ bodyContentOf render rich style ys := by
  induction xs with
  | nil => simp [bodyContentOf]
  | cons x t ih => simp [bodyContentOf, ih]

theorem mem_dropWhile_of_not (p : Char → Bool) :
    ∀ (l : List Char) (c : Char), c ∈ l → p c = false → c ∈ l.dropWhile p := by
  intro l
  induction l with
  | nil => intro c h; simp at h
  | cons x t ih =>
    intro c hmem hp
    rw [List.dropWhile_cons]
    by_cases hx : p x = true
    · rw [if_pos hx]
      rcases List.mem_cons.mp hmem with rfl | h
      · rw [hp] at hx; cases hx
      · exact ih c h hp
    · rw [if_neg hx]
      exact hmem

theorem jsTrim_ne_nil (l : List Char) (c : Char) (hmem : c ∈ l)
    (hns : isJsSpace c = false) : jsTrim l ≠ [] := by
  intro hnil
  unfold jsTrim at hnil
  have h1 : (l.dropWhile isJsSpace).reverse.dropWhile isJsSpace = [] := by
    rw [← List.reverse_eq_nil_iff]
    exact hnil
  rw [List.dropWhile_eq_nil_iff] at h1
  have hc : c ∈ (l.dropWhile isJsSpace).reverse :=
    List.mem_reverse.mpr (mem_dropWhile_of_not isJsSpace l c hmem hns)
  have := h1 c hc
  rw [hns] at this
  cases this

theorem textSegmentHtml_plain (style : ExportStyle) (hsty : style ≠ ExportStyle.worksheet)
    (c : List Char) :
    textSegmentHtml false style c
      = "<span class=\"text-run\">".toList ++ highlightText c ++ "</span>".toList := by
  unfold textSegmentHtml
  rw [if_neg (fun h => hsty h.1), if_neg (by decide)]

theorem mathSegmentHtml_error (render : List Char → Bool → Except Unit (List Char))
    (style : ExportStyle) (c : List Char) (dm : Bool)
    (herr : render c dm = Except.error ()) :
    mathSegmentHtml render style c dm = "[LaTeX Error]".toList := by
  unfold mathSegmentHtml
  rw [herr]

theorem wrapSegment_math_error (render : List Char → Bool → Except Unit (List Char))
    (rich : Bool) (style : ExportStyle) (c : List Char) (dm : Bool)
    (herr : render c dm = Except.error ()) :
    wrapSegment render rich style ⟨SegType.math, c, dm⟩
      = if style = ExportStyle.flashcards ∧ dm = true
        then "<div class=\"flashcard\">".toList ++ "[LaTeX Error]".toList ++ "</div>".toList
        else "[LaTeX Error]".toList := by
  have hm := mathSegmentHtml_error render style c dm herr
  simp only [wrapSegment, hm]
  by_cases hfc : style = ExportStyle.flashcards ∧ dm = true
  · rw [if_pos hfc, if_neg (by simp), if_pos (by exact ⟨hfc.1, trivial, hfc.2⟩)]
  · rw [if_neg hfc, if_neg (by simp), if_neg (fun h => hfc ⟨h.1, h.2.2⟩)]

theorem wrapSegment_text (render : List Char → Bool → Except Unit (List Char))
    (rich : Bool) (style : ExportStyle) (c : List Char) (dm : Bool) :
    wrapSegment render rich style ⟨SegType.text, c, dm⟩
      = if style = ExportStyle.flashcards ∧ 0 < (jsTrim (textSegmentHtml rich style c)).length
        then "<div class=\"flashcard\">".toList ++ textSegmentHtml rich style c
          ++ "</div>".toList
        else textSegmentHtml rich style c := by
  simp only [wrapSegment]
  by_cases h : style = ExportStyle.flashcards ∧ 0 < (jsTrim (textSegmentHtml rich style c)).length
  · rw [if_pos (by exact ⟨h.1, by trivial, h.2⟩), if_pos h]
  · rw [if_neg (fun hh => h ⟨hh.1, hh.2.2⟩), if_neg (by simp), if_neg h]

theorem wrapSegment_math (render : List Char → Bool → Except Unit (List Char))
    (rich : Bool) (style : ExportStyle) (c : List Char) (dm : Bool) :
    wrapSegment render rich style ⟨SegType.math, c, dm⟩
      = if style = ExportStyle.flashcards ∧ dm = true
        then "<div class=\"flashcard\">".toList ++ mathSegmentHtml render style c dm
          ++ "</div>".toList
        else mathSegmentHtml render style c dm := by
  simp only [wrapSegment]
  by_cases h : style = ExportStyle.flashcards ∧ dm = true
  · rw [if_neg (by simp), if_pos (by exact ⟨h.1, by trivial, h.2⟩), if_pos h]
  · rw [if_neg (by simp), if_neg (fun hh => h ⟨hh.1, hh.2.2⟩), if_neg h]

theorem textSegmentHtml_indep (rich : Bool) (s1 s2 : ExportStyle)
    (h1 : s1 ≠ ExportStyle.worksheet) (h2 : s2 ≠ ExportStyle.worksheet) (c : List Char) :
    textSegmentHtml rich s1 c = textSegmentHtml rich s2 c := by
  cases rich
  · rw [textSegmentHtml_plain s1 h1 c, textSegmentHtml_plain s2 h2 c]
  · simp [textSegmentHtml]

theorem mathSegmentHtml_indep (render : List Char → Bool → Except Unit (List Char))
    (s1 s2 : ExportStyle) (h1 : s1 ≠ ExportStyle.worksheet) (h2 : s2 ≠ ExportStyle.worksheet)
    (c : List Char) (dm : Bool) :
    mathSegmentHtml render s1 c dm = mathSegmentHtml render s2 c dm := by
  cases hr : render c dm
  · simp only [mathSegmentHtml, hr]
  · rename_i out
    cases hm : extractMath out
    · simp only [mathSegmentHtml, hr, hm]
    · rename_i m
      simp only [mathSegmentHtml, hr, hm]
      by_cases hdm : dm = true
      · rw [if_pos hdm, if_pos hdm, if_neg h1, if_neg h2]
      · rw [if_neg hdm, if_neg hdm]

theorem wrapSegment_indep (render : List Char → Bool → Except Unit (List Char))
    (rich : Bool) (s1 s2 : ExportStyle)
    (h1w : s1 ≠ ExportStyle.worksheet) (h1f : s1 ≠ ExportStyle.flashcards)
    (h2w : s2 ≠ ExportStyle.worksheet) (h2f : s2 ≠ ExportStyle.flashcards)
    (seg : TextSegment) :
    wrapSegment render rich s1 seg = wrapSegment render rich s2 seg := by
  obtain ⟨ty, c, dm⟩ := seg
  cases ty
  · have ht := textSegmentHtml_indep rich s1 s2 h1w h2w c
    rw [wrapSegment_text, wrapSegment_text, ht, if_neg (fun h => h1f h.1),
      if_neg (fun h => h2f h.1)]
  · have hm := mathSegmentHtml_indep render s1 s2 h1w h2w c dm
    rw [wrapSegment_math, wrapSegment_math, hm, if_neg (fun h => h1f h.1),
      if_neg (fun h => h2f h.1)]

theorem bodyContentOf_indep (render : List Char → Bool → Except Unit (List Char))
    (rich : Bool) (s1 s2 : ExportStyle)
    (h1w : s1 ≠ ExportStyle.worksheet) (h1f : s1 ≠ ExportStyle.flashcards)
    (h2w : s2 ≠ ExportStyle.worksheet) (h2f : s2 ≠ ExportStyle.flashcards) :
    ∀ segs, bodyContentOf render rich s1 segs = bodyContentOf render rich s2 segs := by
  intro segs
  induction segs with
  | nil => rfl
  | cons x t ih =>
    show wrapSegment render rich s1 x ++ bodyContentOf render rich s1 t
        = wrapSegment render rich s2 x ++ bodyContentOf render rich s2 t
    rw [wrapSegment_indep render rich s1 s2 h1w h1f h2w h2f x, ih]

set_option maxRecDepth 8192

/-- C3: the layout directive bundle (page margin, orientation, font size,
font family, line height, extra CSS, heading/table colors) returned by the
serializer depends only on the style — never on the segments, the rich-text
flag or the math collaborator — and, abstracted to the spec's vocabulary,
equals the spec's per-style layout table row for every one of the nine
styles. -/
theorem C3_style_table :
    (∀ (style : ExportStyle) (render : List Char → Bool → Except Unit (List Char))
        (segs : List TextSegment) (rich : Bool),
      (generateWordCompatibleFile render segs rich style).css = styleCssOf style ∧
      (generateWordCompatibleFile render segs rich style).headingColor1 = headingColor1Of style ∧
      (generateWordCompatibleFile render segs rich style).headingColor2 = headingColor2Of style ∧
      (generateWordCompatibleFile render segs rich style).tableHeaderBg = tableHeaderBgOf style) ∧
    (∀ style, abstractRow (styleCssOf style) (headingColor1Of style)
      = some (specLayoutTable style)) := by
  constructor
  · intro style render segs rich
    exact ⟨rfl, rfl, rfl, rfl⟩
  · intro style
    cases style <;> decide

/-- C4: a math segment whose rendering fails degrades to the inline
`[LaTeX Error]` placeholder (card-wrapped only in flashcards display mode)
and the serialization of all sibling segments is exactly what it would be
without the failing segment — serialization never aborts. -/
theorem C4_math_error_isolated :
    ∀ (render : List Char → Bool → Except Unit (List Char)) (rich : Bool)
      (style : ExportStyle) (pre post : List TextSegment) (c : List Char) (dm : Bool),
      render c dm = Except.error () →
      bodyContentOf render rich style (pre ++ ⟨SegType.math, c, dm⟩ :: post)
        = bodyContentOf render rich style pre
          ++ (if style = ExportStyle.flashcards ∧ dm = true
              then "<div class=\"flashcard\">".toList ++ "[LaTeX Error]".toList
                ++ "</div>".toList
              else "[LaTeX Error]".toList)
          ++ bodyContentOf render rich style post := by
  intro render rich style pre post c dm herr
  rw [bodyContentOf_append]
  have hstep : bodyContentOf render rich style (⟨SegType.math, c, dm⟩ :: post)
      = wrapSegment render rich style ⟨SegType.math, c, dm⟩
        ++ bodyContentOf render rich style post := rfl
  rw [hstep, wrapSegment_math_error render rich style c dm herr]
  simp [List.append_assoc]

/-- Witness for C4: a failing collaborator on a display segment between no
segments and one text sibling. -/
theorem C4_math_error_isolated_witness :
    bodyContentOf (fun _ _ => Except.error ()) false ExportStyle.standard
        [⟨SegType.math, ['x'], true⟩, ⟨SegType.text, ['o'], false⟩]
      = bodyContentOf (fun _ _ => Except.error ()) false ExportStyle.standard []
        ++ (if ExportStyle.standard = ExportStyle.flashcards ∧ (true : Bool) = true
            then "<div class=\"flashcard\">".toList ++ "[LaTeX Error]".toList
              ++ "</div>".toList
            else "[LaTeX Error]".toList)
        ++ bodyContentOf (fun _ _ => Except.error ()) false ExportStyle.standard
            [⟨SegType.text, ['o'], false⟩] :=
  C4_math_error_isolated (fun _ _ => Except.error ()) false ExportStyle.standard []
    [⟨SegType.text, ['o'], false⟩] ['x'] true rfl

/-- Counterexample to C5: with style `minimal` in plain-text mode, the
section-marker highlight span still carries the accent color `#0284c7` —
it is not rendered colorless. -/
theorem C5_counterexample :
    hasSub "#0284c7".toList
      (bodyContentOf (fun _ _ => Except.error ()) false ExportStyle.minimal
        [⟨SegType.text, "Câu 1: x".toList, false⟩]) = true := by decide

/-- C5 as amended: under `minimal` and `draft` only the heading colors
(h1–h3) and the table-header background are forced to neutral; the body
markup — including the section-marker and sub-item highlight spans with
their fixed accent colors — is identical to `standard`'s, so the spans are
still inserted structurally but keep their accent colors. -/
theorem C5_amended :
    (∀ (render : List Char → Bool → Except Unit (List Char)) (segs : List TextSegment),
      bodyContentOf render false ExportStyle.minimal segs
        = bodyContentOf render false ExportStyle.standard segs) ∧
    (∀ (render : List Char → Bool → Except Unit (List Char)) (segs : List TextSegment),
      bodyContentOf render false ExportStyle.draft segs
        = bodyContentOf render false ExportStyle.standard segs) ∧
    headingColor1Of ExportStyle.minimal = "#000000".toList ∧
    headingColor2Of ExportStyle.minimal = "#000000".toList ∧
    tableHeaderBgOf ExportStyle.minimal = "#ffffff".toList ∧
    headingColor1Of ExportStyle.draft = "#000000".toList ∧
    headingColor2Of ExportStyle.draft = "#000000".toList ∧
    tableHeaderBgOf ExportStyle.draft = "#ffffff".toList ∧
    hasSub (hl1open ++ "Câu 1:".toList ++ "</span>".toList)
      (bodyContentOf (fun _ _ => Except.error ()) false ExportStyle.minimal
        [⟨SegType.text, "Câu 1: x".toList, false⟩]) = true := by
  refine ⟨?_, ?_, by decide, by decide, by decide, by decide, by decide, by decide, by decide⟩
  · intro render segs
    exact bodyContentOf_indep render false ExportStyle.minimal ExportStyle.standard
      (by decide) (by decide) (by decide) (by decide) segs
  · intro render segs
    exact bodyContentOf_indep render false ExportStyle.draft ExportStyle.standard
      (by decide) (by decide) (by decide) (by decide) segs

/-- Counterexample to C6: in rich-text mode a worksheet text segment whose
content contains "Câu" gets NO dotted answer lines, and a display-mode math
segment whose rendering fails gets NO blank spacer line. -/
theorem C6_counterexample :
    bodyContentOf (fun _ _ => Except.error ()) true ExportStyle.worksheet
        [⟨SegType.text, "Câu 1".toList, false⟩] = "Câu 1".toList ∧
    hasSub "border-bottom: 1px dotted".toList
      (bodyContentOf (fun _ _ => Except.error ()) true ExportStyle.worksheet
        [⟨SegType.text, "Câu 1".toList, false⟩]) = false ∧
    bodyContentOf (fun _ _ => Except.error ()) false ExportStyle.worksheet
        [⟨SegType.math, ['x'], true⟩] = "[LaTeX Error]".toList ∧
    hasSub "margin-bottom: 30pt".toList
      (bodyContentOf (fun _ _ => Except.error ()) false ExportStyle.worksheet
        [⟨SegType.math, ['x'], true⟩]) = false :=
  ⟨by decide, by decide, by decide, by decide⟩

/-- C6 as amended: with style `worksheet`, in plain-text mode only, a text
segment containing "Câu"/"Bài" or longer than 50 characters is followed by
the three dotted answer lines (and a non-qualifying one is not); rich-text
text segments pass through without lines; and a display-mode math segment
gets the blank spacer line exactly when its rendering yields a math
element. -/
theorem C6_amended :
    (∀ c : List Char,
      (hasSub "Câu".toList c = true ∨ hasSub "Bài".toList c = true ∨ 50 < c.length) →
      textSegmentHtml false ExportStyle.worksheet c
        = "<span class=\"text-run\">".toList ++ highlightText c ++ "</span>".toList
          ++ writingLines) ∧
    (∀ c : List Char, hasSub "Câu".toList c = false → hasSub "Bài".toList c = false →
      c.length ≤ 50 →
      textSegmentHtml false ExportStyle.worksheet c
        = "<span class=\"text-run\">".toList ++ highlightText c ++ "</span>".toList) ∧
    (∀ c : List Char, textSegmentHtml true ExportStyle.worksheet c = c) ∧
    (∀ (render : List Char → Bool → Except Unit (List Char)) (c out m : List Char),
      render c true = Except.ok out → extractMath out = some m →
      mathSegmentHtml render ExportStyle.worksheet c true
        = "<p class=\"equation\" style=\"text-align: center; margin: 12pt 0;\">".toList
          ++ stripAnnot m ++ "</p>".toList
          ++ "<p style=\"margin-bottom: 30pt;\">&nbsp;</p>".toList) := by
  refine ⟨?_, ?_, ?_, ?_⟩
  · intro c hq
    unfold textSegmentHtml
    rw [if_pos ⟨rfl, rfl, hq⟩, if_neg (by decide)]
  · intro c h1 h2 h3
    unfold textSegmentHtml
    rw [if_neg ?hneg, if_neg (by decide)]
    case hneg =>
      intro h
      rcases h.2.2 with hc | hc | hc
      · rw [h1] at hc; cases hc
      · rw [h2] at hc; cases hc
      · omega
  · intro c
    unfold textSegmentHtml
    rw [if_neg (by simp), if_pos (by decide)]
  · intro render c out m hr hm
    simp only [mathSegmentHtml, hr, hm]
    simp [List.append_assoc]

/-- Witness for C6 as amended: the qualifying text `"Câu 1"` receives the
answer-lines block. -/
theorem C6_amended_witness :
    textSegmentHtml false ExportStyle.worksheet "Câu 1".toList
      = "<span class=\"text-run\">".toList ++ highlightText "Câu 1".toList
        ++ "</span>".toList ++ writingLines :=
  C6_amended.1 "Câu 1".toList (Or.inl (by decide))

/-- Counterexample to C7: in plain-text flashcards mode an EMPTY text
segment is still wrapped in its own bordered card (its fragment is the
non-whitespace wrapper span), contradicting "empty text segments are
appended without starting a new card". -/
theorem C7_counterexample :
    bodyContentOf (fun _ _ => Except.error ()) false ExportStyle.flashcards
        [⟨SegType.text, [], false⟩]
      = "<div class=\"flashcard\">".toList ++ "<span class=\"text-run\">".toList
        ++ "</span>".toList ++ "</div>".toList := by decide

/-- C7 as amended: with style `flashcards`, a display-mode math segment is
always wrapped in its own card and an inline math segment never is; a text
segment is wrapped exactly when its rendered fragment trims non-empty — in
plain-text mode that is every text segment (the wrapper span markup is
itself non-whitespace, so even empty content is carded), and in rich-text
mode exactly those whose content has a non-whitespace character. -/
theorem C7_amended :
    (∀ (render : List Char → Bool → Except Unit (List Char)) (c : List Char) (dm : Bool),
      wrapSegment render false ExportStyle.flashcards ⟨SegType.text, c, dm⟩
        = "<div class=\"flashcard\">".toList
          ++ textSegmentHtml false ExportStyle.flashcards c ++ "</div>".toList) ∧
    (∀ (render : List Char → Bool → Except Unit (List Char)) (rich : Bool) (c : List Char),
      wrapSegment render rich ExportStyle.flashcards ⟨SegType.math, c, true⟩
        = "<div class=\"flashcard\">".toList
          ++ mathSegmentHtml render ExportStyle.flashcards c true ++ "</div>".toList) ∧
    (∀ (render : List Char → Bool → Except Unit (List Char)) (rich : Bool) (c : List Char),
      wrapSegment render rich ExportStyle.flashcards ⟨SegType.math, c, false⟩
        = mathSegmentHtml render ExportStyle.flashcards c false) ∧
    (∀ (render : List Char → Bool → Except Unit (List Char)) (c : List Char) (dm : Bool),
      jsTrim c = [] →
      wrapSegment render true ExportStyle.flashcards ⟨SegType.text, c, dm⟩ = c) ∧
    (∀ (render : List Char → Bool → Except Unit (List Char)) (c : List Char) (dm : Bool),
      jsTrim c ≠ [] →
      wrapSegment render true ExportStyle.flashcards ⟨SegType.text, c, dm⟩
        = "<div class=\"flashcard\">".toList ++ c ++ "</div>".toList) := by
  have hrichfrag : ∀ c : List Char, textSegmentHtml true ExportStyle.flashcards c = c := by
    intro c
    unfold textSegmentHtml
    rw [if_neg (by simp), if_pos (by decide)]
  refine ⟨?_, ?_, ?_, ?_, ?_⟩
  · intro render c dm
    have hne : jsTrim (textSegmentHtml false ExportStyle.flashcards c) ≠ [] := by
      apply jsTrim_ne_nil _ '<'
      · rw [textSegmentHtml_plain ExportStyle.flashcards (by decide) c]
        exact List.mem_append_left _ (List.mem_append_left _ (by decide))
      · decide
    rw [wrapSegment_text, if_pos ⟨rfl, List.length_pos.mpr hne⟩]
  · intro render rich c
    rw [wrapSegment_math, if_pos ⟨rfl, rfl⟩]
  · intro render rich c
    rw [wrapSegment_math, if_neg (by simp)]
  · intro render c dm hempty
    rw [wrapSegment_text, if_neg ?hneg, hrichfrag c]
    case hneg =>
      intro h
      rw [hrichfrag c, hempty] at h
      exact absurd h.2 (by decide)
  · intro render c dm hne
    rw [wrapSegment_text, if_pos ⟨rfl, by rw [hrichfrag c]; exact List.length_pos.mpr hne⟩,
      hrichfrag c]

/-- Witness for C7 as amended: a whitespace-only rich-text segment is
appended without a card. -/
theorem C7_amended_witness :
    wrapSegment (fun _ _ => Except.error ()) true ExportStyle.flashcards
      ⟨SegType.text, [' '], false⟩ = [' '] :=
  C7_amended.2.2.2.1 (fun _ _ => Except.error ()) [' '] false (by decide)

/-- C10: for every collaborator, segment sequence, rich-text flag and style,
the serialized document is the style-dependent head, then the user content,
then one fixed hardcoded footer containing a horizontal rule and the
centered author-credit paragraph, closed by the body wrapper tags — the
footer always ends the document. -/
theorem C10_footer :
    (∀ (render : List Char → Bool → Except Unit (List Char)) (segs : List TextSegment)
        (rich : Bool) (style : ExportStyle),
      (generateWordCompatibleFile render segs rich style).html
        = (htmlT0 ++ (styleCssOf style).pageMargin ++ htmlT1 ++ (styleCssOf style).orientation
            ++ htmlT2 ++ (styleCssOf style).fontFamily ++ htmlT3 ++ (styleCssOf style).fontSize
            ++ htmlT4 ++ (styleCssOf style).lineHeight ++ htmlT5 ++ headingColor1Of style
            ++ htmlT6 ++ headingColor1Of style ++ htmlT7 ++ headingColor2Of style
            ++ htmlT8 ++ tableHeaderBgOf style ++ htmlT9 ++ (styleCssOf style).extraCss
            ++ htmlT10)
          ++ bodyContentOf render rich style segs ++ htmlFooter) ∧
    hasSub "<hr/>".toList htmlFooter = true ∧
    hasSub ("<p style=\"text-align: center; color: #2E74B5; font-size: 10pt; font-weight: bold; margin-top: 20pt;\">\n                Thầy Vũ Tiến Lực - Trường THPT Nguyễn Hữu Cảnh\n            </p>").toList
      htmlFooter = true ∧
    hasSub ("</p>\n        </div>\n    </body>\n    </html>").toList htmlFooter = true := by
  refine ⟨?_, by decide, by decide, by decide⟩
  intro render segs rich style
  simp [generateWordCompatibleFile, fullHtmlOf, List.append_assoc]

end Wte
